import Mathlib

/-!
Verification development for the Bolivian license-plate OCR correction pipeline
(`backend/seguridad/ocr_config.py`, `backend/seguridad/tesseract_ocr_service.py`,
`backend/seguridad/ai_orchestrator.py`).

Strings are modelled as `List Char`, with ASCII semantics for the Python
predicates `str.isdigit`, `str.isalpha` and `str.upper` (all texts handled by
the pipeline are restricted to the OCR whitelist A-Z0-9, so the ASCII
fragment is the relevant one) and the full CPython whitespace set for
`str.strip()`.  Confidence values (Python floats) are
modelled as rationals; the pipeline only ever compares the constants 0.0, 0.5,
0.65 and 0.7 with each other, so exact rational arithmetic is faithful.
-/

namespace PlateOCR

/-! ### Character-level helpers (ASCII semantics of the Python built-ins) -/

/-- ASCII model of Python `str.isdigit` on a single character. -/
def isDigitCh (c : Char) : Bool := 48 ≤ c.toNat && c.toNat ≤ 57

/-- ASCII model of Python `str.isalpha` on a single character. -/
def isAlphaCh (c : Char) : Bool :=
  (65 ≤ c.toNat && c.toNat ≤ 90) || (97 ≤ c.toNat && c.toNat ≤ 122)

/-- Uppercase A-Z test (the regex class `[A-Z]`). -/
def isUpperCh (c : Char) : Bool := 65 ≤ c.toNat && c.toNat ≤ 90

/-- The characters removed by Python `str.strip()` (CPython
`Py_UNICODE_ISSPACE`): tab, newline, vertical tab, form feed, carriage
return, the separators U+001C-U+001F, space, next line U+0085, no-break
space U+00A0, Ogham space U+1680, the Zs spaces U+2000-U+200A, the line and
paragraph separators U+2028 and U+2029, U+202F, U+205F and the ideographic
space U+3000. -/
def isWsCh (c : Char) : Bool :=
  c.toNat == 32 || c.toNat == 9 || c.toNat == 10 ||
  c.toNat == 11 || c.toNat == 12 || c.toNat == 13 ||
  c.toNat == 28 || c.toNat == 29 || c.toNat == 30 || c.toNat == 31 ||
  c.toNat == 133 || c.toNat == 160 || c.toNat == 5760 ||
  (8192 ≤ c.toNat && c.toNat ≤ 8202) ||
  c.toNat == 8232 || c.toNat == 8233 || c.toNat == 8239 ||
  c.toNat == 8287 || c.toNat == 12288

/-- ASCII model of Python `str.upper` on a single character. -/
def upCh (c : Char) : Char :=
  if 97 ≤ c.toNat ∧ c.toNat ≤ 122 then Char.ofNat (c.toNat - 32) else c

/-- Python strings are modelled as lists of characters. -/
abbrev Str := List Char

/-- Coerce a Lean string literal to the model representation. -/
def pyStr (s : String) : Str := s.data

/-- Python `str.upper`. -/
def pyUpper (s : Str) : Str := s.map upCh

/-- Python `str.strip()`: drop whitespace from both ends. -/
def pyStrip (s : Str) : Str :=
  ((s.dropWhile isWsCh).reverse.dropWhile isWsCh).reverse

/-- Python `str.replace(a, b)` for single characters. -/
def pyReplace (a b : Char) (s : Str) : Str :=
  s.map (fun c => if c = a then b else c)

/-- Python `str.isdigit` (true only on nonempty all-digit strings). -/
def pyIsdigit (s : Str) : Bool := !s.isEmpty && s.all isDigitCh

/-- Python `str.isalpha` (true only on nonempty all-letter strings). -/
def pyIsalpha (s : Str) : Bool := !s.isEmpty && s.all isAlphaCh

/-- Positional map over a string, carrying the character index
(models Python `for i, c in enumerate(text)` loops). -/
def mapPos (f : Nat → Char → Char) : Nat → Str → Str
  | _, [] => []
  | i, c :: cs => f i c :: mapPos f (i + 1) cs

/-! ### `ocr_config.py`: `BOLIVIA_CONFIG` and `OCRConfig.is_valid_plate` -/

/-- Regex `^[A-Z]{3}\d{4}$` (ABC1234, "tradicional"). -/
def patTrad (t : Str) : Bool :=
  t.length == 7 && (t.take 3).all isUpperCh && (t.drop 3).all isDigitCh

/-- Regex `^\d{4}[A-Z]{3}$` (1234ABC, "moderno"). -/
def patModern (t : Str) : Bool :=
  t.length == 7 && (t.take 4).all isDigitCh && (t.drop 4).all isUpperCh

/-- Regex `^[A-Z]{2}\d{3}[A-Z]$` (AB123C, "antiguo"/motorcycle). -/
def patMoto (t : Str) : Bool :=
  t.length == 6 && (t.take 2).all isUpperCh &&
  ((t.drop 2).take 3).all isDigitCh && (t.drop 5).all isUpperCh

/-- Regex `^[A-Z]{3}\d{3}$` (ABC123, taxi). -/
def patTaxi (t : Str) : Bool :=
  t.length == 6 && (t.take 3).all isUpperCh && (t.drop 3).all isDigitCh

/-- Disjunction of the four `BOLIVIA_CONFIG.patterns`. -/
def matchesBolivia (t : Str) : Bool :=
  patTrad t || patModern t || patMoto t || patTaxi t

/-- The normalisation performed at the start of `OCRConfig.is_valid_plate`:
`text.strip().upper().replace(' ', '').replace('-', '')`. -/
def normPlate (s : Str) : Str :=
  ((pyUpper (pyStrip s)).filter (fun c => !(c = ' ' : Bool))).filter
    (fun c => !(c = '-' : Bool))

/-- `OCRConfig.is_valid_plate` for `BOLIVIA_CONFIG`
(`min_length = 6`, `max_length = 7`). -/
def isValidPlate (s : Str) : Bool :=
  let t := normPlate s
  if 6 ≤ t.length ∧ t.length ≤ 7 then matchesBolivia t else false

/-! ### `TesseractOCRService._fix_common_ocr_errors` -/

/-- Digit-position substitutions of the `1234ABC` branch (positions 0-3):
O→0, I→1, L→1, S→5, B→8 (only at positions 0-1), Z→2, G→6, T→7, F→1,
A→4 (only at position 0). -/
def fixDigitPos (i : Nat) (c : Char) : Char :=
  if c = 'O' then '0'
  else if c = 'I' then '1'
  else if c = 'L' then '1'
  else if c = 'S' then '5'
  else if c = 'B' ∧ i < 2 then '8'
  else if c = 'Z' then '2'
  else if c = 'G' then '6'
  else if c = 'T' then '7'
  else if c = 'F' then '1'
  else if c = 'A' ∧ i = 0 then '4'
  else c

/-- The digit-to-letter chain of the `1234ABC` branch (positions 4-6):
0→O, 1→I, 8→B, 5→S, 6→G, 2→Z, 7→T. -/
def fixLetterBase (c : Char) : Char :=
  if c = '0' then 'O'
  else if c = '1' then 'I'
  else if c = '8' then 'B'
  else if c = '5' then 'S'
  else if c = '6' then 'G'
  else if c = '2' then 'Z'
  else if c = '7' then 'T'
  else c

/-- Letter-position substitutions of the `1234ABC` branch (positions 4-6):
the digit-to-letter chain followed by the trailing U→D special case at
position 6. -/
def fixLetterPos (i : Nat) (c : Char) : Char :=
  if i = 6 ∧ fixLetterBase c = 'U' then 'D' else fixLetterBase c

/-- Letter-position substitutions of the `ABC1234` branch (positions 0-2):
0→O, 1→I, 8→B, 5→S. -/
def fixLetterPos03 (c : Char) : Char :=
  if c = '0' then 'O'
  else if c = '1' then 'I'
  else if c = '8' then 'B'
  else if c = '5' then 'S'
  else c

/-- Digit-position substitutions of the `ABC1234` branch (positions 3-6):
O→0, I→1, L→1, S→5, B→8, Z→2, G→6. -/
def fixDigitPos36 (c : Char) : Char :=
  if c = 'O' then '0'
  else if c = 'I' then '1'
  else if c = 'L' then '1'
  else if c = 'S' then '5'
  else if c = 'B' then '8'
  else if c = 'Z' then '2'
  else if c = 'G' then '6'
  else c

/-- The 7-character body of `_fix_common_ocr_errors`: choose the layout by
counting digits in `text[:4]` versus `text[3:]`, then correct per position. -/
def fixSeven (t : Str) : Str :=
  if 2 ≤ ((t.take 4).filter isDigitCh).length then
    mapPos fixDigitPos 0 (t.take 4) ++ mapPos fixLetterPos 4 (t.drop 4)
  else if 2 ≤ ((t.drop 3).filter isDigitCh).length then
    (t.take 3).map fixLetterPos03 ++ (t.drop 3).map fixDigitPos36
  else t

/-- `TesseractOCRService._fix_common_ocr_errors`. -/
def fixCommonOcrErrors (s : Str) : Str :=
  if s.length < 6 then s
  else if (pyStrip (pyUpper s)).length = 7 then fixSeven (pyStrip (pyUpper s))
  else pyStrip (pyUpper s)

/-! ### `TesseractOCRService._force_bolivian_format` -/

/-- The `to_digit` confusion table of `_force_bolivian_format`. -/
def toDigitTable (c : Char) : Option Char :=
  if c = 'O' then some '0'
  else if c = 'I' then some '1'
  else if c = 'L' then some '1'
  else if c = 'S' then some '5'
  else if c = 'B' then some '8'
  else if c = 'Z' then some '2'
  else if c = 'G' then some '6'
  else if c = 'T' then some '7'
  else if c = 'A' then some '4'
  else if c = 'F' then some '1'
  else none

/-- The `to_letter` confusion table of `_force_bolivian_format`. -/
def toLetterTable (c : Char) : Option Char :=
  if c = '0' then some 'O'
  else if c = '1' then some 'I'
  else if c = '8' then some 'B'
  else if c = '5' then some 'S'
  else if c = '6' then some 'G'
  else if c = '2' then some 'Z'
  else if c = '7' then some 'T'
  else if c = '4' then some 'A'
  else none

/-- One character of a forced digit position: keep digits, else apply
`to_digit`, else keep the character. -/
def forceDigitCh (c : Char) : Char :=
  if isDigitCh c then c
  else match toDigitTable c with
    | some d => d
    | none => c

/-- One character of a forced letter position: keep letters, else apply
`to_letter`, else keep the character. -/
def forceLetterCh (c : Char) : Char :=
  if isAlphaCh c then c
  else match toLetterTable c with
    | some l => l
    | none => c

/-- "Intento 1": reinterpret as `1234ABC` (4 digit positions, 3 letter
positions). -/
def forceAttempt1 (t : Str) : Str :=
  mapPos (fun i c => if i < 4 then forceDigitCh c else forceLetterCh c) 0 t

/-- "Intento 2": reinterpret as `ABC1234` (3 letter positions, 4 digit
positions). -/
def forceAttempt2 (t : Str) : Str :=
  mapPos (fun i c => if i < 3 then forceLetterCh c else forceDigitCh c) 0 t

/-- Acceptance test for attempt 1:
`len(candidate1) == 7 and candidate1[:4].isdigit() and candidate1[4:].isalpha()`. -/
def digitFirstShape (c : Str) : Bool :=
  c.length == 7 && pyIsdigit (c.take 4) && pyIsalpha (c.drop 4)

/-- Acceptance test for attempt 2:
`len(candidate2) == 7 and candidate2[:3].isalpha() and candidate2[3:].isdigit()`. -/
def letterFirstShape (c : Str) : Bool :=
  c.length == 7 && pyIsalpha (c.take 3) && pyIsdigit (c.drop 3)

/-- `TesseractOCRService._force_bolivian_format`. -/
def forceBolivianFormat (s : Str) : Option Str :=
  if s.length ≠ 7 then none
  else if digitFirstShape (forceAttempt1 (pyUpper s)) then
    some (forceAttempt1 (pyUpper s))
  else if letterFirstShape (forceAttempt2 (pyUpper s)) then
    some (forceAttempt2 (pyUpper s))
  else none

/-! ### `TesseractOCRService._apply_smart_corrections` -/

/-- Condition for the first smart candidate:
`text[:4].replace('O','0').replace('I','1').replace('L','1').replace('S','5')
.replace('B','8').isdigit()`. -/
def smartCond1 (t : Str) : Bool :=
  pyIsdigit (pyReplace 'B' '8' (pyReplace 'S' '5' (pyReplace 'L' '1'
    (pyReplace 'I' '1' (pyReplace 'O' '0' (t.take 4))))))

/-- Digit-segment replacement chain of the smart corrections
(O→0, I→1, L→1, S→5, B→8, Z→2, G→6). -/
def smartDigitChain (s : Str) : Str :=
  pyReplace 'G' '6' (pyReplace 'Z' '2' (pyReplace 'B' '8' (pyReplace 'S' '5'
    (pyReplace 'L' '1' (pyReplace 'I' '1' (pyReplace 'O' '0' s))))))

/-- Letter-segment replacement chain of the smart corrections
(0→O, 1→I, 8→B, 5→S, 6→G, 2→Z); the source's trailing
`.replace('D','D').replace('P','P').replace('H','H')` are identities. -/
def smartLetterChain (s : Str) : Str :=
  pyReplace 'H' 'H' (pyReplace 'P' 'P' (pyReplace 'D' 'D'
    (pyReplace '2' 'Z' (pyReplace '6' 'G' (pyReplace '5' 'S'
      (pyReplace '8' 'B' (pyReplace '1' 'I' (pyReplace '0' 'O' s))))))))

/-- Letter-segment replacement chain used for `text[:3]` in the second smart
candidate (0→O, 1→I, 8→B, 5→S, 6→G, 2→Z). -/
def smartLetterChain3 (s : Str) : Str :=
  pyReplace '2' 'Z' (pyReplace '6' 'G' (pyReplace '5' 'S'
    (pyReplace '8' 'B' (pyReplace '1' 'I' (pyReplace '0' 'O' s)))))

/-- Per-position map of the third (score 90) smart candidate. -/
def smartPosCh (i : Nat) (c : Char) : Char :=
  if i < 4 then
    if c = 'O' then '0'
    else if c = 'I' then '1'
    else if c = 'L' then '1'
    else if c = 'S' then '5'
    else if c = 'B' then '8'
    else c
  else
    if c = '0' then 'O'
    else if c = '1' then 'I'
    else if c = '8' then 'B'
    else if c = '5' then 'S'
    else c

/-- `TesseractOCRService._apply_smart_corrections`: returns candidate/score
pairs; score 100 for pattern-derived corrections, 90 for the positional
correction, 0 for the raw text. -/
def smartCorrections (s : Str) : List (Str × Nat) :=
  let t := pyStrip (pyUpper s)
  if t.length ≠ 7 then [(t, 0)]
  else
    let digitCount := (t.filter isDigitCh).length
    let letterCount := (t.filter isAlphaCh).length
    if digitCount < 3 ∨ letterCount < 2 then [(t, 0)]
    else
      let c1 :=
        if smartCond1 t then
          let cand := smartDigitChain (t.take 4) ++ smartLetterChain (t.drop 4)
          if cand ≠ t ∧ isValidPlate cand then [(cand, 100)] else []
        else []
      let c2 :=
        if pyIsdigit (pyReplace 'I' '1' (pyReplace 'O' '0' (t.drop 4))) ∨
            3 ≤ letterCount then
          let cand := smartLetterChain3 (t.take 3) ++ smartDigitChain (t.drop 3)
          if cand ≠ t ∧ isValidPlate cand then [(cand, 100)] else []
        else []
      let corrected := mapPos smartPosCh 0 t
      let c3 :=
        if corrected ≠ t ∧ isValidPlate corrected then [(corrected, 90)] else []
      let all := c1 ++ c2 ++ c3
      if all.isEmpty then [(t, 0)] else all.take 3

/-! ### `TesseractOCRService.read_plate`

The OCR engine itself (pytesseract) is an external collaborator: we model one
entry of the `strategies` list by the raw text that `image_to_string` returns
for it plus the `(conf, text)` rows that `image_to_data` would return.  The
remainder of `read_plate` (cleaning, corrections, candidate bookkeeping, the
best-result update and the fallback chain) is embedded faithfully. -/

/-- One OCR pass: the strategy label, the raw `image_to_string` output and the
`image_to_data` fragment rows `(conf, text)`. -/
structure StratIn where
  name : Str
  text : Str
  frags : List (Int × Str)
deriving DecidableEq

/-- `re.sub(r'[^A-Z0-9]', '', full_text.upper().strip())`. -/
def cleanText (s : Str) : Str :=
  (pyStrip (pyUpper s)).filter (fun c => isUpperCh c || isDigitCh c)

/-- Fragment post-processing:
`re.sub(r'[^A-Z0-9]', '', text.strip().upper())` followed by
`_fix_common_ocr_errors`. -/
def fragText (s : Str) : Str :=
  fixCommonOcrErrors ((pyUpper (pyStrip s)).filter
    (fun c => isUpperCh c || isDigitCh c))

/-- `" (corr)"` suffix used when recording a smart-correction candidate. -/
def corrName (n : Str) : Str := n ++ pyStr " (corr)"

/-- `all_candidates` updates performed by the loop over
`correction_candidates` (the loop's updates to `all_candidates` do not read
`potential_plates`, so the two accumulators are split). -/
def smartCandsAC (name : Str) : List (Str × Nat) → List (Str × Str) → List (Str × Str)
  | [], ac => ac
  | p :: rest, ac =>
    smartCandsAC name rest
      (if p.1 ≠ [] ∧ 6 ≤ p.1.length ∧ (p.1, name) ∉ ac then
        ac ++ [(p.1, corrName name)]
      else ac)

/-- `potential_plates` updates performed by the loop over
`correction_candidates`. -/
def smartCandsPot : List (Str × Nat) → List Str → List Str
  | [], pot => pot
  | p :: rest, pot =>
    smartCandsPot rest
      (if p.1 ≠ [] ∧ isValidPlate p.1 ∧ p.1 ∉ pot then pot ++ [p.1] else pot)

/-- The `all_candidates` entries contributed by one strategy, as a function of
the entries accumulated so far. -/
def candidatesOfStrategy (ac : List (Str × Str)) (inp : StratIn) : List (Str × Str) :=
  let corrected := fixCommonOcrErrors (cleanText inp.text)
  let ac1 :=
    if 6 ≤ corrected.length ∧ corrected.length ≤ 10 then
      ac ++ [(corrected, inp.name)]
    else ac
  smartCandsAC inp.name (smartCorrections corrected) ac1

/-- The `potential_plates` list produced by one strategy (validated smart
candidates, the corrected text, the raw cleaned text, then — only if still
empty — validated `image_to_data` fragments above the confidence threshold
`fragment_threshold = 20`). -/
def potentialOf (inp : StratIn) : List Str :=
  let cleaned := cleanText inp.text
  let corrected := fixCommonOcrErrors cleaned
  let pot1 := smartCandsPot (smartCorrections corrected) []
  let pot2 :=
    if corrected ≠ [] ∧ isValidPlate corrected ∧ corrected ∉ pot1 then
      pot1 ++ [corrected]
    else pot1
  let pot3 :=
    if cleaned ≠ [] ∧ cleaned ≠ corrected ∧ isValidPlate cleaned ∧
        cleaned ∉ pot2 then
      pot2 ++ [cleaned]
    else pot2
  if pot3 = [] then
    inp.frags.foldl
      (fun pot fr =>
        if 20 < fr.1 then
          let t := fragText fr.2
          if 5 ≤ t.length ∧ t ∉ pot ∧ isValidPlate t then pot ++ [t] else pot
        else pot)
      pot3
  else pot3

/-- Python `max(valid_plates, key=len)`: the first element of maximal length. -/
def maxByLen (l : List Str) : Str :=
  l.foldl (fun best p => if best.length < p.length then p else best) (l.headD [])

/-- The best-result update of one strategy: with a constant per-strategy
confidence (`min_confidence = 0.7`), the first strategy with a valid plate
wins and later strategies only replace it with a strictly longer plate. -/
def updateBest (best : Option Str) (pot : List Str) : Option Str :=
  let valids := pot.filter isValidPlate
  if valids ≠ [] then
    let bp := maxByLen valids
    match best with
    | none => some bp
    | some b => if b.length < bp.length then some bp else some b
  else best

/-- `all_candidates` after the whole strategy loop. -/
def allCandidatesOf (inputs : List StratIn) : List (Str × Str) :=
  inputs.foldl candidatesOfStrategy []

/-- `best_result` after the whole strategy loop. -/
def bestOf (inputs : List StratIn) : Option Str :=
  inputs.foldl (fun b inp => updateBest b (potentialOf inp)) none

/-- One step of the forced-correction fallback: a stored candidate of 6-8
characters is attempted with `_force_bolivian_format` and accepted when the
forced text validates. -/
def forcedAccepts (c : Str) : Option Str :=
  if 6 ≤ c.length ∧ c.length ≤ 8 then
    match forceBolivianFormat c with
    | some f => if isValidPlate f then some f else none
    | none => none
  else none

/-- The forced-correction fallback loop over `all_candidates`. -/
def forcedFallback : List (Str × Str) → Option Str
  | [] => none
  | p :: rest =>
    match forcedAccepts p.1 with
    | some f => some f
    | none => forcedFallback rest

/-- The last-resort loop: return the first stored 7-character candidate
containing at least one digit and one letter, without validation. -/
def firstMixed : List (Str × Str) → Option Str
  | [] => none
  | p :: rest =>
    if p.1.length = 7 ∧ p.1.any isDigitCh ∧ p.1.any isAlphaCh then some p.1
    else firstMixed rest

/-- `min_confidence` default (0.7), the confidence of a validated result. -/
def minConfidence : ℚ := mkRat 7 10

/-- Confidence 0.65 attached to a forced-correction result. -/
def forcedConfidence : ℚ := mkRat 13 20

/-- Confidence 0.5 attached to an unvalidated mixed 7-character candidate. -/
def mixedConfidence : ℚ := mkRat 1 2

/-- The post-OCR portion of `TesseractOCRService.read_plate`: the strategy
loop followed by the fallback chain.  Always returns a (plate?, confidence)
pair; the Python `try`/`except` wrapper maps any internal error to
`(None, 0.0)`, so the function is total. -/
def readPlateFromTexts (inputs : List StratIn) : Option Str × ℚ :=
  match bestOf inputs with
  | some b => (some b, minConfidence)
  | none =>
    match forcedFallback (allCandidatesOf inputs) with
    | some f => (some f, forcedConfidence)
    | none =>
      match firstMixed (allCandidatesOf inputs) with
      | some c => (some c, mixedConfidence)
      | none => (none, 0)

/-! ### `AIOrchestrator.read_plate`

The cloud provider (`azure_cv_service`) and the local Tesseract service are
collaborators; the orchestrator's own logic is the fallback chain: a cloud
result with a nonempty plate wins, any cloud exception or empty cloud result
falls through to the local service, and a local exception becomes
`(None, 0.0)`. -/

/-- Outcome of the cloud provider call: a returned pair, or a raised
exception. -/
inductive CloudOutcome where
  | success (plate : Option Str) (conf : ℚ)
  | failure
deriving DecidableEq

/-- Outcome of the local Tesseract call: a returned pair, or a raised
exception. -/
inductive LocalOutcome where
  | success (result : Option Str × ℚ)
  | failure
deriving DecidableEq

/-- The `except` handling around the Tesseract fallback call. -/
def localFallback : LocalOutcome → Option Str × ℚ
  | .success r => r
  | .failure => (none, 0)

/-- `AIOrchestrator.read_plate`: Azure first (its result used only when the
plate text is truthy, i.e. present and nonempty), then Tesseract. -/
def orchestratorReadPlate (cloud : CloudOutcome) (loc : LocalOutcome) :
    Option Str × ℚ :=
  match cloud with
  | .success (some p) conf => if p ≠ [] then (some p, conf) else localFallback loc
  | .success none _ => localFallback loc
  | .failure => localFallback loc

/-! ### `TesseractOCRService.preprocess_plate_image`

The OpenCV transforms are collaborators, modelled as an oracle of fallible
steps over an abstract image type; the embedded function keeps the source's
control flow: decode, smart resize, grayscale, the strategy branches (with the
`otsu` early return), the common tail, and the `except` fallback that returns
the plain grayscale decoding of the original bytes. -/

/-- The named preprocessing strategies. -/
inductive PStrategy where
  | normal
  | shadow
  | worn
  | otsu
  | plateDetect
deriving DecidableEq

/-- Oracle for the OpenCV operations used by `preprocess_plate_image`.
`Except Unit` models a call that may raise; `imdecode` returns `none` for
undecodable bytes (OpenCV returns `None` rather than raising). -/
structure CVOracle (Img : Type) where
  imdecodeColor : List Nat → Option Img
  imdecodeGray : List Nat → Option Img
  shape : Img → Nat × Nat
  resize : Img → Nat × Nat → Except Unit Img
  cvtGray : Img → Except Unit Img
  gaussianBlur : Img → Nat → Except Unit Img
  divide : Img → Img → Except Unit Img
  denoise : Img → Except Unit Img
  thresholdOtsu : Img → Except Unit Img
  detectCrop : Img → Option Img
  bilateralFilter : Img → Except Unit Img
  clahe : ℚ → Img → Except Unit Img
  sharpen : Img → Except Unit Img
  adaptiveThreshold : Img → Except Unit Img
  morphClose : Img → Except Unit Img
  morphOpen : Img → Except Unit Img

/-- The body of the `try` block of `preprocess_plate_image` (config defaults:
`target_width = 400`, `min_width_scale = 200`, `max_width_scale = 600`,
`scale_factor_small = 2.0`). -/
def preprocessTry {Img : Type} (o : CVOracle Img) (bytes : List Nat)
    (aggressive : Bool) (strategy : PStrategy) : Except Unit Img := do
  match o.imdecodeColor bytes with
  | none => throw ()
  | some img0 =>
    let hw := o.shape img0
    let height := hw.1
    let width := hw.2
    let scale : ℚ :=
      if width < 200 then 2
      else if 600 < width then mkRat 400 width
      else 1
    let img ←
      if scale ≠ 1 then
        o.resize img0 (⌊(width : ℚ) * scale⌋.toNat, ⌊(height : ℚ) * scale⌋.toNat)
      else pure img0
    let gray0 ← o.cvtGray img
    match strategy with
    | .otsu => do
      let blur ← o.gaussianBlur gray0 5
      o.thresholdOtsu blur
    | _ => do
      let gray ←
        match strategy with
        | .shadow => do
          let blur ← o.gaussianBlur gray0 21
          o.divide gray0 blur
        | .worn => o.denoise gray0
        | .plateDetect =>
          pure (match o.detectCrop img with
            | some p => p
            | none => gray0)
        | _ => pure gray0
      let denoised ← o.bilateralFilter gray
      let enhanced ← o.clahe (if aggressive then 3 else 2) denoised
      let sharpened ← o.sharpen enhanced
      let binary ← o.adaptiveThreshold sharpened
      if aggressive then do
        let m ← o.morphClose binary
        o.morphOpen m
      else o.morphClose binary

/-- `TesseractOCRService.preprocess_plate_image`: the `try` block with the
`except` fallback returning the plain grayscale decoding of the input. -/
def preprocessPlateImage {Img : Type} (o : CVOracle Img) (bytes : List Nat)
    (aggressive : Bool) (strategy : PStrategy) : Option Img :=
  match preprocessTry o bytes aggressive strategy with
  | .ok i => some i
  | .error _ => o.imdecodeGray bytes

/-! ### Claim-side definitions -/

/-- The transformation named by the claim about normalisation invariance:
the input uppercased with all spaces and hyphens removed (note: no `strip`). -/
def claimNormalize (s : Str) : Str :=
  ((pyUpper s).filter (fun c => !(c = ' ' : Bool))).filter
    (fun c => !(c = '-' : Bool))

/-- An oracle whose colour decode fails on every input (corrupt bytes) while
grayscale decode succeeds; used to exercise the preprocessing fallback. -/
def failingOracle : CVOracle Unit where
  imdecodeColor := fun _ => none
  imdecodeGray := fun _ => some ()
  shape := fun _ => (0, 0)
  resize := fun _ _ => .ok ()
  cvtGray := fun _ => .ok ()
  gaussianBlur := fun _ _ => .ok ()
  divide := fun _ _ => .ok ()
  denoise := fun _ => .ok ()
  thresholdOtsu := fun _ => .ok ()
  detectCrop := fun _ => none
  bilateralFilter := fun _ => .ok ()
  clahe := fun _ _ => .ok ()
  sharpen := fun _ => .ok ()
  adaptiveThreshold := fun _ => .ok ()
  morphClose := fun _ => .ok ()
  morphOpen := fun _ => .ok ()

/-! ## Helper lemmas -/

/-- `Char.ofNat` of a valid code point has that code point as `toNat`. -/
theorem char_toNat_ofNat (n : Nat) (hv : n.isValidChar) :
    (Char.ofNat n).toNat = n := by
  rw [Char.ofNat, dif_pos hv]
  exact BitVec.toNat_ofNatLt n _

/-- Characters are equal iff their code points are. -/
theorem char_eq_iff (a b : Char) : a = b ↔ a.toNat = b.toNat :=
  ⟨fun h => h ▸ rfl, fun h => Char.eq_of_val_eq (UInt32.ext h)⟩

/-- Code point of `upCh`. -/
theorem upCh_toNat (c : Char) :
    (upCh c).toNat =
      if 97 ≤ c.toNat ∧ c.toNat ≤ 122 then c.toNat - 32 else c.toNat := by
  unfold upCh
  split
  · next h => exact char_toNat_ofNat _ (Or.inl (by omega))
  · rfl

/-- `upCh` fixes every character that is not an ASCII lowercase letter;
in particular uppercase letters and digits. -/
theorem upCh_eq_self (c : Char) (h : ¬(97 ≤ c.toNat ∧ c.toNat ≤ 122)) :
    upCh c = c := by
  unfold upCh
  exact if_neg h

/-- `upCh` is idempotent. -/
theorem upCh_idem (c : Char) : upCh (upCh c) = upCh c := by
  apply upCh_eq_self
  rw [upCh_toNat]
  split <;> omega

/-- `upCh` preserves whitespace-ness. -/
theorem isWsCh_upCh (c : Char) : isWsCh (upCh c) = isWsCh c := by
  unfold isWsCh
  rw [upCh_toNat]
  apply Bool.eq_iff_iff.mpr
  simp only [Bool.or_eq_true, Bool.and_eq_true, beq_iff_eq, decide_eq_true_eq]
  split <;> omega

/-- `upCh` moves no character to or from any fixed character with code point
below 97 (used for the space and hyphen filters). -/
theorem upCh_eq_low_iff (c : Char) (d : Char) (hd : d.toNat < 65) :
    upCh c = d ↔ c = d := by
  rw [char_eq_iff, char_eq_iff, upCh_toNat]
  split <;> omega

/-- Members of `dropWhile` are members of the original list. -/
theorem mem_of_mem_dropWhile {α : Type} (p : α → Bool) (l : List α) (a : α)
    (h : a ∈ l.dropWhile p) : a ∈ l := by
  induction l with
  | nil => exact absurd h (List.not_mem_nil a)
  | cons x xs ih =>
    rw [List.dropWhile_cons] at h
    split at h
    · exact List.mem_cons_of_mem _ (ih h)
    · exact h

/-- Members of `pyStrip` are members of the original list. -/
theorem mem_of_mem_pyStrip (l : List Char) (a : Char) (h : a ∈ pyStrip l) :
    a ∈ l := by
  unfold pyStrip at h
  rw [List.mem_reverse] at h
  have h1 := mem_of_mem_dropWhile _ _ _ h
  rw [List.mem_reverse] at h1
  exact mem_of_mem_dropWhile _ _ _ h1

/-- A map that fixes every member is the identity. -/
theorem map_eq_self_of {α : Type} (f : α → α) (l : List α)
    (h : ∀ a ∈ l, f a = a) : l.map f = l := by
  induction l with
  | nil => rfl
  | cons x xs ih =>
    simp only [List.map_cons, h x (List.mem_cons_self x xs)]
    rw [ih (fun a ha => h a (List.mem_cons_of_mem _ ha))]

/-- `dropWhile` is the identity when no member satisfies the predicate. -/
theorem dropWhile_eq_self_of {α : Type} (p : α → Bool) (l : List α)
    (h : ∀ a ∈ l, p a = false) : l.dropWhile p = l := by
  cases l with
  | nil => rfl
  | cons x xs =>
    rw [List.dropWhile_cons, h x (List.mem_cons_self x xs)]
    simp

/-- `pyStrip` is the identity on whitespace-free strings. -/
theorem pyStrip_eq_self_of (l : List Char)
    (h : ∀ a ∈ l, isWsCh a = false) : pyStrip l = l := by
  unfold pyStrip
  rw [dropWhile_eq_self_of _ _ h]
  rw [dropWhile_eq_self_of _ _ (fun a ha => h a (List.mem_reverse.mp ha))]
  exact List.reverse_reverse l

/-- `filter` commutes with a `map` that translates the predicate pointwise. -/
theorem filter_map_comm {α : Type} (f : α → α) (p q : α → Bool) (l : List α)
    (h : ∀ a, p (f a) = q a) : (l.map f).filter p = (l.filter q).map f := by
  induction l with
  | nil => rfl
  | cons x xs ih =>
    simp only [List.map_cons, List.filter_cons, h x]
    cases q x <;> simp [ih]

/-- `dropWhile` commutes with a `map` that translates the predicate
pointwise. -/
theorem dropWhile_map_comm {α : Type} (f : α → α) (p q : α → Bool) (l : List α)
    (h : ∀ a, p (f a) = q a) :
    (l.map f).dropWhile p = (l.dropWhile q).map f := by
  induction l with
  | nil => rfl
  | cons x xs ih =>
    simp only [List.map_cons, List.dropWhile_cons, h x]
    cases q x <;> simp [ih]

/-- `pyStrip` commutes with `pyUpper`. -/
theorem pyStrip_pyUpper (l : List Char) :
    pyStrip (pyUpper l) = pyUpper (pyStrip l) := by
  unfold pyStrip pyUpper
  rw [dropWhile_map_comm upCh isWsCh isWsCh l isWsCh_upCh, ← List.map_reverse,
    dropWhile_map_comm upCh isWsCh isWsCh _ isWsCh_upCh, ← List.map_reverse]

/-- Filtering after dropping a prefix whose members all fail the filter gives
the same result as filtering the whole list. -/
theorem filter_dropWhile_of {α : Type} (p q : α → Bool) (l : List α)
    (h : ∀ a ∈ l, q a = true → p a = false) :
    (l.dropWhile q).filter p = l.filter p := by
  induction l with
  | nil => rfl
  | cons x xs ih =>
    rw [List.dropWhile_cons]
    split
    · next hq =>
      rw [ih (fun a ha hqa => h a (List.mem_cons_of_mem _ ha) hqa)]
      rw [List.filter_cons, h x (List.mem_cons_self x xs) hq]
      simp
    · rfl

/-- Filtering is unaffected by `pyStrip` when every member that `strip` can
remove (whitespace) fails the filter. -/
theorem filter_pyStrip_of (p : Char → Bool) (l : List Char)
    (h : ∀ a ∈ l, isWsCh a = true → p a = false) :
    (pyStrip l).filter p = l.filter p := by
  unfold pyStrip
  rw [List.filter_reverse,
    filter_dropWhile_of p isWsCh ((l.dropWhile isWsCh).reverse)
      (fun a ha hws =>
        h a (mem_of_mem_dropWhile _ _ _ (List.mem_reverse.mp ha)) hws),
    List.filter_reverse, filter_dropWhile_of p isWsCh l h,
    List.reverse_reverse]

/-- Characters in the printable-ASCII band above the separators (code
points 48-122, covering digits and letters) are not Python whitespace. -/
theorem isWsCh_eq_false (c : Char) (h : 48 ≤ c.toNat ∧ c.toNat ≤ 122) :
    isWsCh c = false := by
  unfold isWsCh
  simp only [Bool.or_eq_false_iff, beq_eq_false_iff_ne, ne_eq,
    Bool.and_eq_false_iff, decide_eq_false_iff_not]
  omega

/-- Code-point bounds of an uppercase-or-digit character. -/
theorem az09_bounds (c : Char) (h : (isUpperCh c || isDigitCh c) = true) :
    65 ≤ c.toNat ∧ c.toNat ≤ 90 ∨ 48 ≤ c.toNat ∧ c.toNat ≤ 57 := by
  unfold isUpperCh isDigitCh at h
  simpa only [Bool.or_eq_true, Bool.and_eq_true, decide_eq_true_eq] using h

/-- The `is_valid_plate` normalisation is the identity on strings of
uppercase letters and digits. -/
theorem normPlate_eq_self (s : Str)
    (h : ∀ c ∈ s, (isUpperCh c || isDigitCh c) = true) : normPlate s = s := by
  unfold normPlate
  rw [pyStrip_eq_self_of s
    (fun a ha => isWsCh_eq_false a (by rcases az09_bounds a (h a ha) with h1 | h1 <;> omega))]
  rw [show pyUpper s = s from map_eq_self_of _ _
    (fun a ha => upCh_eq_self a (by rcases az09_bounds a (h a ha) with h1 | h1 <;> omega))]
  rw [List.filter_eq_self.mpr, List.filter_eq_self.mpr]
  · intro a ha
    simp only [Bool.not_eq_true', decide_eq_false_iff_not]
    intro heq
    have h32 : (' ' : Char).toNat = 32 := rfl
    rw [char_eq_iff, h32] at heq
    rcases az09_bounds a (h a ha) with h1 | h1 <;> omega
  · intro a ha
    have ha' : a ∈ s := (List.mem_filter.mp ha).1
    simp only [Bool.not_eq_true', decide_eq_false_iff_not]
    intro heq
    have h45 : ('-' : Char).toNat = 45 := rfl
    rw [char_eq_iff, h45] at heq
    rcases az09_bounds a (h a ha') with h1 | h1 <;> omega

/-- Any string matching one of the Bolivian patterns has length 6 or 7. -/
theorem matchesBolivia_length (t : Str) (h : matchesBolivia t = true) :
    t.length = 6 ∨ t.length = 7 := by
  unfold matchesBolivia patTrad patModern patMoto patTaxi at h
  simp only [Bool.or_eq_true, Bool.and_eq_true, beq_iff_eq] at h
  rcases h with ((⟨⟨h7, _⟩, _⟩ | ⟨⟨h7, _⟩, _⟩) | ⟨⟨⟨h6, _⟩, _⟩, _⟩) | ⟨⟨h6, _⟩, _⟩
  · right; exact h7
  · right; exact h7
  · left; exact h6
  · left; exact h6

/-- Every character of a string matching one of the Bolivian patterns is an
uppercase letter or a digit. -/
theorem matchesBolivia_az09 (t : Str) (h : matchesBolivia t = true) :
    ∀ c ∈ t, (isUpperCh c || isDigitCh c) = true := by
  intro c hc
  unfold matchesBolivia patTrad patModern patMoto patTaxi at h
  simp only [Bool.or_eq_true, Bool.and_eq_true, beq_iff_eq, List.all_eq_true] at h
  rcases h with ((⟨⟨_, hA⟩, hB⟩ | ⟨⟨_, hA⟩, hB⟩) | ⟨⟨⟨_, hA⟩, hB⟩, hC⟩) | ⟨⟨_, hA⟩, hB⟩
  · rcases List.mem_append.mp (by rw [List.take_append_drop 3 t]; exact hc) with hm | hm
    · rw [Bool.or_eq_true]; exact Or.inl (hA c hm)
    · rw [Bool.or_eq_true]; exact Or.inr (hB c hm)
  · rcases List.mem_append.mp (by rw [List.take_append_drop 4 t]; exact hc) with hm | hm
    · rw [Bool.or_eq_true]; exact Or.inr (hA c hm)
    · rw [Bool.or_eq_true]; exact Or.inl (hB c hm)
  · rcases List.mem_append.mp (by rw [List.take_append_drop 2 t]; exact hc) with hm | hm
    · rw [Bool.or_eq_true]; exact Or.inl (hA c hm)
    · rcases List.mem_append.mp
        (by rw [List.take_append_drop 3 (t.drop 2)]; exact hm) with hm2 | hm2
      · rw [Bool.or_eq_true]; exact Or.inr (hB c hm2)
      · have : (t.drop 2).drop 3 = t.drop 5 := by
          rw [List.drop_drop]
        rw [this] at hm2
        rw [Bool.or_eq_true]; exact Or.inl (hC c hm2)
  · rcases List.mem_append.mp (by rw [List.take_append_drop 3 t]; exact hc) with hm | hm
    · rw [Bool.or_eq_true]; exact Or.inl (hA c hm)
    · rw [Bool.or_eq_true]; exact Or.inr (hB c hm)

/-! ## Claims -/

/-- C2 (counterexample): `"ABC-1234"` has length 8 — outside
`[min_length, max_length] = [6, 7]` — and matches none of the configured
patterns, yet `is_valid_plate` returns `True` for it, because the length and
pattern checks are applied to the normalised text, not the input. -/
theorem c2_counterexample :
    (pyStr "ABC-1234").length = 8 ∧
    matchesBolivia (pyStr "ABC-1234") = false ∧
    isValidPlate (pyStr "ABC-1234") = true := by decide

/-- C2 (amended): every string matching one of the configured Bolivian
patterns is accepted by `is_valid_plate`; and every string of uppercase
letters and digits (the normalisation-invariant alphabet) whose length lies
outside `[6, 7]` or which matches no configured pattern is rejected. -/
theorem c2_is_valid_plate :
    (∀ s : Str, matchesBolivia s = true → isValidPlate s = true) ∧
    (∀ s : Str, (∀ c ∈ s, (isUpperCh c || isDigitCh c) = true) →
      (¬(6 ≤ s.length ∧ s.length ≤ 7) ∨ matchesBolivia s = false) →
      isValidPlate s = false) := by
  constructor
  · intro s hm
    have hn : normPlate s = s := normPlate_eq_self s (matchesBolivia_az09 s hm)
    unfold isValidPlate
    simp only [hn]
    rcases matchesBolivia_length s hm with h6 | h7
    · rw [if_pos (by omega)]; exact hm
    · rw [if_pos (by omega)]; exact hm
  · intro s hclean hcase
    have hn : normPlate s = s := normPlate_eq_self s hclean
    unfold isValidPlate
    simp only [hn]
    rcases hcase with hlen | hfalse
    · rw [if_neg hlen]
    · split
      · exact hfalse
      · rfl

/-- C2 (witness): the amended theorem applied at `"ABC1234"` (a matching
string, accepted) and `"AB"` (too short, rejected). -/
theorem c2_is_valid_plate_witness :
    isValidPlate (pyStr "ABC1234") = true ∧ isValidPlate (pyStr "AB") = false :=
  ⟨c2_is_valid_plate.1 _ (by decide),
   c2_is_valid_plate.2 _ (by decide) (Or.inl (by decide))⟩

/-- C10 (counterexample): the claim fails on `"-\tABC1234"`. The code strips
whitespace before removing hyphens, so the tab character — shielded from
`strip()` by the leading hyphen — survives normalisation and the string is
rejected; but in the claim's normalised form (hyphen removed first) the tab
becomes leading whitespace, is stripped, and the string is accepted. -/
theorem c10_counterexample :
    isValidPlate (pyStr "-\tABC1234") = false ∧
    isValidPlate (claimNormalize (pyStr "-\tABC1234")) = true := by decide

/-- C10 (amended): for every string in which the only whitespace characters
are plain spaces, `is_valid_plate` is invariant under uppercasing and
removing all spaces and hyphens; in particular hyphenated or lowercase forms
of a valid plate are accepted. -/
theorem c10_normalization_invariant (s : Str)
    (h : ∀ c ∈ s, isWsCh c = true → c = ' ') :
    isValidPlate (claimNormalize s) = isValidPlate s := by
  suffices hn : normPlate (claimNormalize s) = normPlate s by
    unfold isValidPlate
    rw [hn]
  have hv : ∀ c ∈ pyUpper s, isWsCh c = true → c = ' ' := by
    intro c hc hws
    rcases List.mem_map.mp hc with ⟨c0, hc0, rfl⟩
    rw [isWsCh_upCh] at hws
    rw [h c0 hc0 hws]
    exact upCh_eq_self ' ' (by intro hcon; exact absurd hcon.1 (by decide))
  have hw : ∀ c ∈ claimNormalize s,
      c ∈ pyUpper s ∧ (!(c = ' ' : Bool)) = true ∧ (!(c = '-' : Bool)) = true := by
    intro c hc
    unfold claimNormalize at hc
    have h1 := List.mem_filter.mp hc
    have h2 := List.mem_filter.mp h1.1
    exact ⟨h2.1, h2.2, h1.2⟩
  have hstep1 : pyStrip (claimNormalize s) = claimNormalize s := by
    apply pyStrip_eq_self_of
    intro a ha
    cases hws : isWsCh a with
    | false => rfl
    | true =>
      obtain ⟨hmem, hS, _⟩ := hw a ha
      have ha' := hv a hmem hws
      simp only [Bool.not_eq_true', decide_eq_false_iff_not] at hS
      exact absurd ha' hS
  have hstep2 : pyUpper (claimNormalize s) = claimNormalize s := by
    apply map_eq_self_of
    intro a ha
    obtain ⟨hmem, _, _⟩ := hw a ha
    rcases List.mem_map.mp hmem with ⟨a0, _, rfl⟩
    exact upCh_idem a0
  have hstep3 :
      ((claimNormalize s).filter (fun c => !(c = ' ' : Bool))).filter
        (fun c => !(c = '-' : Bool)) = claimNormalize s := by
    rw [List.filter_eq_self.mpr (fun a ha => (hw a ha).2.1)]
    exact List.filter_eq_self.mpr (fun a ha => (hw a ha).2.2)
  have hlhs : normPlate (claimNormalize s) = claimNormalize s := by
    unfold normPlate
    rw [hstep1, hstep2]
    exact hstep3
  have hrhs : normPlate s = claimNormalize s := by
    unfold normPlate claimNormalize
    rw [← pyStrip_pyUpper]
    rw [filter_pyStrip_of _ (pyUpper s) (fun a ha hws => by
      rw [hv a ha hws]
      simp)]
  rw [hlhs, hrhs]

/-- C10 (witness): the amended theorem applied at `"abc-1234"`, together with
the fact that this lowercase hyphenated plate is accepted. -/
theorem c10_normalization_invariant_witness :
    isValidPlate (claimNormalize (pyStr "abc-1234")) =
      isValidPlate (pyStr "abc-1234") ∧
    isValidPlate (pyStr "abc-1234") = true :=
  ⟨c10_normalization_invariant (pyStr "abc-1234") (by decide), by decide⟩

/-- A digit differs from any character that is not a digit. -/
theorem digit_ne (c d : Char) (h : isDigitCh c = true) (hd : ¬isDigitCh d = true) :
    c ≠ d := fun he => hd (he ▸ h)

/-- An uppercase letter differs from any character that is not one. -/
theorem upper_ne (c d : Char) (h : isUpperCh c = true) (hd : ¬isUpperCh d = true) :
    c ≠ d := fun he => hd (he ▸ h)

/-- An uppercase letter is not a digit. -/
theorem upper_not_digit (c : Char) (h : isUpperCh c = true) :
    isDigitCh c = false := by
  unfold isUpperCh at h
  unfold isDigitCh
  simp only [Bool.and_eq_true, decide_eq_true_eq] at h
  simp only [Bool.and_eq_false_iff, decide_eq_false_iff_not]
  omega

/-- The digit-position substitutions fix digits. -/
theorem fixDigitPos_digit (i : Nat) (c : Char) (h : isDigitCh c = true) :
    fixDigitPos i c = c := by
  unfold fixDigitPos
  rw [if_neg (digit_ne c 'O' h (by decide)), if_neg (digit_ne c 'I' h (by decide)),
    if_neg (digit_ne c 'L' h (by decide)), if_neg (digit_ne c 'S' h (by decide)),
    if_neg (fun hc => digit_ne c 'B' h (by decide) hc.1),
    if_neg (digit_ne c 'Z' h (by decide)), if_neg (digit_ne c 'G' h (by decide)),
    if_neg (digit_ne c 'T' h (by decide)), if_neg (digit_ne c 'F' h (by decide)),
    if_neg (fun hc => digit_ne c 'A' h (by decide) hc.1)]

/-- The digit-to-letter chain fixes uppercase letters. -/
theorem fixLetterBase_upper (c : Char) (h : isUpperCh c = true) :
    fixLetterBase c = c := by
  unfold fixLetterBase
  rw [if_neg (upper_ne c '0' h (by decide)), if_neg (upper_ne c '1' h (by decide)),
    if_neg (upper_ne c '8' h (by decide)), if_neg (upper_ne c '5' h (by decide)),
    if_neg (upper_ne c '6' h (by decide)), if_neg (upper_ne c '2' h (by decide)),
    if_neg (upper_ne c '7' h (by decide))]

/-- At positions other than 6, the letter-position substitutions fix
uppercase letters. -/
theorem fixLetterPos_upper_ne6 (i : Nat) (c : Char) (h : isUpperCh c = true)
    (hi : i ≠ 6) : fixLetterPos i c = c := by
  unfold fixLetterPos
  rw [fixLetterBase_upper c h, if_neg (fun hc => hi hc.1)]

/-- At position 6, the letter-position substitutions fix uppercase letters
other than `U`. -/
theorem fixLetterPos_upper6 (c : Char) (h : isUpperCh c = true) (hc : c ≠ 'U') :
    fixLetterPos 6 c = c := by
  unfold fixLetterPos
  rw [fixLetterBase_upper c h, if_neg (fun hand => hc hand.2)]

/-- The `ABC1234`-branch letter substitutions fix uppercase letters. -/
theorem fixLetterPos03_upper (c : Char) (h : isUpperCh c = true) :
    fixLetterPos03 c = c := by
  unfold fixLetterPos03
  rw [if_neg (upper_ne c '0' h (by decide)), if_neg (upper_ne c '1' h (by decide)),
    if_neg (upper_ne c '8' h (by decide)), if_neg (upper_ne c '5' h (by decide))]

/-- The `ABC1234`-branch digit substitutions fix digits. -/
theorem fixDigitPos36_digit (c : Char) (h : isDigitCh c = true) :
    fixDigitPos36 c = c := by
  unfold fixDigitPos36
  rw [if_neg (digit_ne c 'O' h (by decide)), if_neg (digit_ne c 'I' h (by decide)),
    if_neg (digit_ne c 'L' h (by decide)), if_neg (digit_ne c 'S' h (by decide)),
    if_neg (digit_ne c 'B' h (by decide)), if_neg (digit_ne c 'Z' h (by decide)),
    if_neg (digit_ne c 'G' h (by decide))]

/-- Lists of length 7 decompose into seven elements. -/
theorem length7_decomp (t : Str) (h : t.length = 7) :
    ∃ a b c d e f g, t = [a, b, c, d, e, f, g] := by
  match t with
  | [a, b, c, d, e, f, g] => exact ⟨a, b, c, d, e, f, g, rfl⟩
  | [] | [_] | [_, _] | [_, _, _] | [_, _, _, _] | [_, _, _, _, _]
  | [_, _, _, _, _, _] => simp at h
  | _ :: _ :: _ :: _ :: _ :: _ :: _ :: _ :: _ => simp at h

/-- `strip` then `upper` is the identity on strings of uppercase letters and
digits. -/
theorem strip_upper_eq_self (t : Str)
    (h : ∀ c ∈ t, (isUpperCh c || isDigitCh c) = true) :
    pyStrip (pyUpper t) = t := by
  rw [show pyUpper t = t from map_eq_self_of _ _
    (fun a ha => upCh_eq_self a (by rcases az09_bounds a (h a ha) with h1 | h1 <;> omega))]
  exact pyStrip_eq_self_of t
    (fun a ha => isWsCh_eq_false a (by rcases az09_bounds a (h a ha) with h1 | h1 <;> omega))

/-- On a plate of the traditional `ABC1234` layout the corrector is the
identity. -/
theorem fix_eq_of_patTrad (t : Str) (h : patTrad t = true) :
    fixCommonOcrErrors t = t := by
  have haz : ∀ c ∈ t, (isUpperCh c || isDigitCh c) = true :=
    matchesBolivia_az09 t (by unfold matchesBolivia; rw [h]; rfl)
  have hlen : t.length = 7 := by
    unfold patTrad at h
    simp only [Bool.and_eq_true, beq_iff_eq] at h
    exact h.1.1
  obtain ⟨a, b, c, d1, d2, d3, d4, rfl⟩ := length7_decomp t hlen
  unfold patTrad at h
  simp only [Bool.and_eq_true, beq_iff_eq, List.all_eq_true, List.take,
    List.drop, List.mem_cons, List.not_mem_nil, or_false, forall_eq_or_imp,
    forall_eq] at h
  obtain ⟨⟨-, ha, hb, hc⟩, hd1, hd2, hd3, hd4⟩ := h
  unfold fixCommonOcrErrors
  rw [strip_upper_eq_self _ haz]
  rw [if_neg (by simp), if_pos (by simp)]
  unfold fixSeven
  rw [if_neg (by
    simp only [List.take, List.filter,
      upper_not_digit a ha, upper_not_digit b hb, upper_not_digit c hc, hd1]
    simp)]
  rw [if_pos (by
    simp only [List.drop, List.filter, hd1, hd2, hd3, hd4]
    simp)]
  simp only [List.take, List.drop, List.map,
    fixLetterPos03_upper a ha, fixLetterPos03_upper b hb, fixLetterPos03_upper c hc,
    fixDigitPos36_digit d1 hd1, fixDigitPos36_digit d2 hd2,
    fixDigitPos36_digit d3 hd3, fixDigitPos36_digit d4 hd4]
  rfl

/-- On a plate of the modern `1234ABC` layout the corrector only touches the
final character, and only when it is `U`. -/
theorem fix_eq_of_patModern (t : Str) (h : patModern t = true) :
    (t.getLast? ≠ some 'U' → fixCommonOcrErrors t = t) ∧
    (t.getLast? = some 'U' → fixCommonOcrErrors t = t.dropLast ++ ['D'] ∧
      patModern (t.dropLast ++ ['D']) = true ∧
      (t.dropLast ++ ['D']).getLast? = some 'D') := by
  have haz : ∀ c ∈ t, (isUpperCh c || isDigitCh c) = true :=
    matchesBolivia_az09 t (by unfold matchesBolivia; rw [h]; simp)
  have hlen : t.length = 7 := by
    unfold patModern at h
    simp only [Bool.and_eq_true, beq_iff_eq] at h
    exact h.1.1
  obtain ⟨d1, d2, d3, d4, a, b, c, rfl⟩ := length7_decomp t hlen
  unfold patModern at h
  simp only [Bool.and_eq_true, beq_iff_eq, List.all_eq_true, List.take,
    List.drop, List.mem_cons, List.not_mem_nil, or_false, forall_eq_or_imp,
    forall_eq] at h
  obtain ⟨⟨-, hd1, hd2, hd3, hd4⟩, ha, hb, hc⟩ := h
  have hfix : fixCommonOcrErrors [d1, d2, d3, d4, a, b, c] =
      [d1, d2, d3, d4, a, b, fixLetterPos 6 c] := by
    unfold fixCommonOcrErrors
    rw [strip_upper_eq_self _ haz]
    rw [if_neg (by simp), if_pos (by simp)]
    unfold fixSeven
    rw [if_pos (by
      simp only [List.take, List.filter, hd1, hd2, hd3, hd4]
      simp)]
    simp only [List.take, List.drop, mapPos,
      fixDigitPos_digit 0 d1 hd1, fixDigitPos_digit 1 d2 hd2,
      fixDigitPos_digit 2 d3 hd3, fixDigitPos_digit 3 d4 hd4,
      fixLetterPos_upper_ne6 4 a ha (by omega),
      fixLetterPos_upper_ne6 5 b hb (by omega)]
    rfl
  constructor
  · intro hU
    have hcU : c ≠ 'U' := by
      intro hcon
      exact hU (by rw [hcon]; rfl)
    rw [hfix, fixLetterPos_upper6 c hc hcU]
  · intro hU
    have hcU : c = 'U' := by
      have : some c = some 'U' := hU
      exact Option.some.inj this
    subst hcU
    refine ⟨?_, ?_, rfl⟩
    · rw [hfix, show fixLetterPos 6 'U' = 'D' from by decide]
      rfl
    · show patModern [d1, d2, d3, d4, a, b, 'D'] = true
      unfold patModern
      simp [hd1, hd2, hd3, hd4, ha, hb, (by decide : isUpperCh 'D' = true)]

/-- On a plate of either 6-character layout the corrector is the identity. -/
theorem fix_eq_of_len6 (t : Str) (hm : matchesBolivia t = true)
    (hlen : t.length = 6) : fixCommonOcrErrors t = t := by
  have haz := matchesBolivia_az09 t hm
  unfold fixCommonOcrErrors
  rw [strip_upper_eq_self _ haz]
  rw [if_neg (by omega), if_neg (by omega)]

/-- C3 (counterexample): `"1234ABU"` is a valid plate, yet applying the
corrector (twice) changes it: the trailing-`U` special case rewrites it to
`"1234ABD"`. -/
theorem c3_counterexample :
    isValidPlate (pyStr "1234ABU") = true ∧
    fixCommonOcrErrors (fixCommonOcrErrors (pyStr "1234ABU")) ≠ pyStr "1234ABU" ∧
    fixCommonOcrErrors (pyStr "1234ABU") = pyStr "1234ABD" := by decide

/-- C3 (amended): on every string directly matching a configured Bolivian
pattern the corrector is idempotent, and it is the identity except on
modern-layout plates (`1234ABC`) ending in `U`, where it rewrites the final
`U` to `D` (once). -/
theorem c3_corrector_idempotent (t : Str) (hm : matchesBolivia t = true) :
    fixCommonOcrErrors (fixCommonOcrErrors t) = fixCommonOcrErrors t ∧
    (¬(patModern t = true ∧ t.getLast? = some 'U') → fixCommonOcrErrors t = t) ∧
    (patModern t = true → t.getLast? = some 'U' →
      fixCommonOcrErrors t = t.dropLast ++ ['D']) := by
  have hid : ¬(patModern t = true ∧ t.getLast? = some 'U') →
      fixCommonOcrErrors t = t := by
    intro hnot
    have hm' := hm
    unfold matchesBolivia at hm'
    simp only [Bool.or_eq_true] at hm'
    rcases hm' with ((hp | hp) | hp) | hp
    · exact fix_eq_of_patTrad t hp
    · rcases Decidable.em (t.getLast? = some 'U') with hU | hU
      · exact absurd ⟨hp, hU⟩ hnot
      · exact (fix_eq_of_patModern t hp).1 hU
    · refine fix_eq_of_len6 t hm ?_
      unfold patMoto at hp
      simp only [Bool.and_eq_true, beq_iff_eq] at hp
      exact hp.1.1.1
    · refine fix_eq_of_len6 t hm ?_
      unfold patTaxi at hp
      simp only [Bool.and_eq_true, beq_iff_eq] at hp
      exact hp.1.1
  refine ⟨?_, hid, ?_⟩
  · rcases Decidable.em (patModern t = true ∧ t.getLast? = some 'U') with hU | hU
    · obtain ⟨hfix, hpat', hlast'⟩ := (fix_eq_of_patModern t hU.1).2 hU.2
      rw [hfix]
      exact (fix_eq_of_patModern _ hpat').1 (by rw [hlast']; decide)
    · rw [hid hU, hid hU]
  · intro hp hU
    exact ((fix_eq_of_patModern t hp).2 hU).1

/-- C3 (witness): the amended theorem applied at the valid plates
`"ABC1234"` (identity) and `"1234ABU"` (trailing `U` rewritten to `D`). -/
theorem c3_corrector_idempotent_witness :
    fixCommonOcrErrors (pyStr "ABC1234") = pyStr "ABC1234" ∧
    fixCommonOcrErrors (pyStr "1234ABU") = pyStr "1234ABD" :=
  ⟨(c3_corrector_idempotent (pyStr "ABC1234") (by decide)).2.1 (by decide),
   by
    have h := (c3_corrector_idempotent (pyStr "1234ABU") (by decide)).2.2
      (by decide) (by decide)
    simpa using h⟩

/-- The best-result update does nothing on an empty candidate pool. -/
theorem updateBest_nil (b : Option Str) : updateBest b [] = b := by
  simp [updateBest]

/-- With no validated candidate in any pass, the strategy loop ends with no
best result. -/
theorem bestOf_eq_none (inputs : List StratIn)
    (h : ∀ inp ∈ inputs, potentialOf inp = []) : bestOf inputs = none := by
  unfold bestOf
  induction inputs with
  | nil => rfl
  | cons x xs ih =>
    rw [List.foldl_cons, h x (List.mem_cons_self x xs), updateBest_nil]
    exact ih (fun inp hin => h inp (List.mem_cons_of_mem _ hin))

/-- If no stored candidate force-corrects to a valid plate, the forced
fallback returns nothing. -/
theorem forcedFallback_eq_none (l : List (Str × Str))
    (h : ∀ p ∈ l, forcedAccepts p.1 = none) : forcedFallback l = none := by
  induction l with
  | nil => rfl
  | cons p rest ih =>
    show (match forcedAccepts p.1 with
      | some f => some f
      | none => forcedFallback rest) = none
    rw [h p (List.mem_cons_self p rest)]
    exact ih (fun q hq => h q (List.mem_cons_of_mem _ hq))

/-- If the forced fallback returns nothing, every stored candidate was
attempted and rejected. -/
theorem forcedFallback_none_mem (l : List (Str × Str))
    (h : forcedFallback l = none) : ∀ p ∈ l, forcedAccepts p.1 = none := by
  induction l with
  | nil => intro p hp; exact absurd hp (List.not_mem_nil p)
  | cons p rest ih =>
    intro q hq
    have h' : (match forcedAccepts p.1 with
      | some f => some f
      | none => forcedFallback rest) = none := h
    rcases List.mem_cons.mp hq with rfl | hq2
    · cases hacc : forcedAccepts q.1 with
      | some f => rw [hacc] at h'; exact absurd h' (by simp)
      | none => rfl
    · cases hacc : forcedAccepts p.1 with
      | some f => rw [hacc] at h'; exact absurd h' (by simp)
      | none =>
        rw [hacc] at h'
        exact ih h' q hq2

/-- A successful forced fallback is the first accepted candidate in order. -/
theorem forcedFallback_some_decomp (l : List (Str × Str)) (f : Str)
    (h : forcedFallback l = some f) :
    ∃ pre p suf, l = pre ++ p :: suf ∧ forcedAccepts p.1 = some f ∧
      ∀ q ∈ pre, forcedAccepts q.1 = none := by
  induction l with
  | nil => exact absurd h (by simp [forcedFallback])
  | cons p rest ih =>
    have h' : (match forcedAccepts p.1 with
      | some g => some g
      | none => forcedFallback rest) = some f := h
    cases hacc : forcedAccepts p.1 with
    | some g =>
      rw [hacc] at h'
      refine ⟨[], p, rest, rfl, ?_, fun q hq => absurd hq (List.not_mem_nil q)⟩
      rw [hacc, Option.some.inj h']
    | none =>
      rw [hacc] at h'
      obtain ⟨pre, q, suf, heq, hq, hpre⟩ := ih h'
      refine ⟨p :: pre, q, suf, by rw [heq]; rfl, hq, ?_⟩
      intro r hr
      rcases List.mem_cons.mp hr with rfl | hr2
      · exact hacc
      · exact hpre r hr2

/-- If no stored candidate is an unvalidated 7-character mixed string, the
last-resort loop returns nothing. -/
theorem firstMixed_eq_none (l : List (Str × Str))
    (h : ∀ p ∈ l, ¬(p.1.length = 7 ∧ p.1.any isDigitCh = true ∧
      p.1.any isAlphaCh = true)) : firstMixed l = none := by
  induction l with
  | nil => rfl
  | cons p rest ih =>
    show (if p.1.length = 7 ∧ p.1.any isDigitCh ∧ p.1.any isAlphaCh then some p.1
      else firstMixed rest) = none
    rw [if_neg (h p (List.mem_cons_self p rest))]
    exact ih (fun q hq => h q (List.mem_cons_of_mem _ hq))

/-- C1 (counterexample): an OCR pass reading `"QQQQQQ1"` produces no
candidate that validates — directly, after smart correction, or after forced
correction — yet `read_plate` does not return `(None, 0.0)`: the last-resort
loop returns the unvalidated candidate itself with confidence 0.5. -/
theorem c1_counterexample :
    isValidPlate (pyStr "QQQQQQ1") = false ∧
    smartCorrections (pyStr "QQQQQQ1") = [(pyStr "QQQQQQ1", 0)] ∧
    forceBolivianFormat (pyStr "QQQQQQ1") = none ∧
    readPlateFromTexts [⟨pyStr "s", pyStr "QQQQQQ1", []⟩] =
      (some (pyStr "QQQQQQ1"), mixedConfidence) ∧
    (some (pyStr "QQQQQQ1"), mixedConfidence) ≠
      ((none : Option Str), (0 : ℚ)) := by decide

/-- C1 (amended): when no pass yields a validated candidate, no stored
candidate force-corrects to a valid plate, and additionally no stored
7-character candidate mixes digits and letters, the local `read_plate`
returns `(None, 0.0)`; the embedded pipeline is a total function, so no
exception reaches the caller. -/
theorem c1_no_valid_candidate (inputs : List StratIn)
    (h1 : ∀ inp ∈ inputs, potentialOf inp = [])
    (h2 : ∀ p ∈ allCandidatesOf inputs, forcedAccepts p.1 = none)
    (h3 : ∀ p ∈ allCandidatesOf inputs,
      ¬(p.1.length = 7 ∧ p.1.any isDigitCh = true ∧ p.1.any isAlphaCh = true)) :
    readPlateFromTexts inputs = (none, 0) := by
  unfold readPlateFromTexts
  rw [bestOf_eq_none inputs h1, forcedFallback_eq_none _ h2,
    firstMixed_eq_none _ h3]

/-- C1 (witness): a run whose only pass reads `"QQ"` satisfies all three
hypotheses and returns `(None, 0.0)`. -/
theorem c1_no_valid_candidate_witness :
    readPlateFromTexts [⟨pyStr "s", pyStr "QQ", []⟩] = (none, 0) :=
  c1_no_valid_candidate _ (by decide) (by decide) (by decide)

/-- C4: the forced-format fallback is exhaustive and ordered — if it fails,
every stored 6-8 character candidate was attempted and rejected; if it
succeeds, its result comes from the first accepted candidate, all earlier
ones having been rejected.  `_force_bolivian_format` itself only ever returns
the digit-first or the letter-first reinterpretation of its (uppercased)
input, and the digit-first reinterpretation is preferred whenever it has the
required shape. -/
theorem c4_forced_fallback_loop (cands : List (Str × Str)) :
    (forcedFallback cands = none → ∀ p ∈ cands, forcedAccepts p.1 = none) ∧
    (∀ f, forcedFallback cands = some f →
      ∃ pre p suf, cands = pre ++ p :: suf ∧ forcedAccepts p.1 = some f ∧
        ∀ q ∈ pre, forcedAccepts q.1 = none) ∧
    (∀ t f, forceBolivianFormat t = some f →
      f = forceAttempt1 (pyUpper t) ∨ f = forceAttempt2 (pyUpper t)) ∧
    (∀ t : Str, t.length = 7 →
      digitFirstShape (forceAttempt1 (pyUpper t)) = true →
      forceBolivianFormat t = some (forceAttempt1 (pyUpper t))) := by
  refine ⟨forcedFallback_none_mem cands,
    fun f => forcedFallback_some_decomp cands f, ?_, ?_⟩
  · intro t f hf
    unfold forceBolivianFormat at hf
    split at hf
    · exact absurd hf (by simp)
    · split at hf
      · exact Or.inl (Option.some.inj hf).symm
      · split at hf
        · exact Or.inr (Option.some.inj hf).symm
        · exact absurd hf (by simp)
  · intro t h7 hshape
    unfold forceBolivianFormat
    rw [if_neg (by omega), if_pos hshape]

/-- C4 (witness): the theorem applied to a singleton candidate list that the
fallback rejects (`"QQQQQQ1"`), and to `"ATTIOBC"`, whose digit-first
reinterpretation `"4771OBC"` is accepted. -/
theorem c4_forced_fallback_loop_witness :
    forcedAccepts (pyStr "QQQQQQ1") = none ∧
    forceBolivianFormat (pyStr "ATTIOBC") =
      some (forceAttempt1 (pyUpper (pyStr "ATTIOBC"))) :=
  ⟨(c4_forced_fallback_loop [(pyStr "QQQQQQ1", pyStr "s")]).1 (by decide)
      (pyStr "QQQQQQ1", pyStr "s") (by decide),
   (c4_forced_fallback_loop []).2.2.2 (pyStr "ATTIOBC") (by decide) (by decide)⟩

/-- C9: `_force_bolivian_format` returns `None` on every input whose length
is not 7, and any string it returns has length 7 and is either 4 digits
followed by 3 letters or 3 letters followed by 4 digits. -/
theorem c9_force_shape (t : Str) :
    (t.length ≠ 7 → forceBolivianFormat t = none) ∧
    (∀ r, forceBolivianFormat t = some r →
      r.length = 7 ∧
        (((r.take 4).all isDigitCh = true ∧ (r.drop 4).all isAlphaCh = true) ∨
         ((r.take 3).all isAlphaCh = true ∧ (r.drop 3).all isDigitCh = true))) := by
  constructor
  · intro h
    unfold forceBolivianFormat
    exact if_pos h
  · intro r hr
    unfold forceBolivianFormat at hr
    split at hr
    · exact absurd hr (by simp)
    · split at hr
      · next hshape =>
        obtain rfl := Option.some.inj hr
        unfold digitFirstShape at hshape
        simp only [Bool.and_eq_true, beq_iff_eq] at hshape
        obtain ⟨⟨hlen, hdig⟩, halpha⟩ := hshape
        unfold pyIsdigit at hdig
        unfold pyIsalpha at halpha
        simp only [Bool.and_eq_true] at hdig halpha
        exact ⟨hlen, Or.inl ⟨hdig.2, halpha.2⟩⟩
      · split at hr
        · next hshape =>
          obtain rfl := Option.some.inj hr
          unfold letterFirstShape at hshape
          simp only [Bool.and_eq_true, beq_iff_eq] at hshape
          obtain ⟨⟨hlen, halpha⟩, hdig⟩ := hshape
          unfold pyIsdigit at hdig
          unfold pyIsalpha at halpha
          simp only [Bool.and_eq_true] at hdig halpha
          exact ⟨hlen, Or.inr ⟨halpha.2, hdig.2⟩⟩
        · exact absurd hr (by simp)

/-- C9 (witness): the theorem applied at `"AB"` (wrong length, `None`) and at
`"ATTIOBC"`, forced to `"4771OBC"` (4 digits + 3 letters). -/
theorem c9_force_shape_witness :
    forceBolivianFormat (pyStr "AB") = none ∧
    ((pyStr "4771OBC").length = 7 ∧
      ((((pyStr "4771OBC").take 4).all isDigitCh = true ∧
        ((pyStr "4771OBC").drop 4).all isAlphaCh = true) ∨
       (((pyStr "4771OBC").take 3).all isAlphaCh = true ∧
        ((pyStr "4771OBC").drop 3).all isDigitCh = true))) :=
  ⟨(c9_force_shape (pyStr "AB")).1 (by decide),
   (c9_force_shape (pyStr "ATTIOBC")).2 (pyStr "4771OBC") (by decide)⟩

/-- C8: when the strategy loop finds no valid plate and a stored candidate is
accepted by the forced-correction fallback, `read_plate` returns the forced
plate with confidence 0.65, which lies in [0.5, 0.65] and is strictly below
the confidence 0.7 returned for any normally-validated match. -/
theorem c8_forced_confidence_band (inputs : List StratIn) (f : Str)
    (hbest : bestOf inputs = none)
    (hforced : forcedFallback (allCandidatesOf inputs) = some f) :
    readPlateFromTexts inputs = (some f, forcedConfidence) ∧
    mixedConfidence ≤ forcedConfidence ∧
    forcedConfidence < minConfidence ∧
    (∀ inputs2 b, bestOf inputs2 = some b →
      readPlateFromTexts inputs2 = (some b, minConfidence)) := by
  refine ⟨?_, by decide, by decide, ?_⟩
  · unfold readPlateFromTexts
    rw [hbest, hforced]
  · intro inputs2 b hb
    unfold readPlateFromTexts
    rw [hb]

/-- C8 (witness): a run whose only pass reads `"ATTIOBC"` — never validated,
but force-corrected — returns `("4771OBC", 0.65)`. -/
theorem c8_forced_confidence_band_witness :
    readPlateFromTexts [⟨pyStr "s", pyStr "ATTIOBC", []⟩] =
      (some (pyStr "4771OBC"), forcedConfidence) :=
  (c8_forced_confidence_band [⟨pyStr "s", pyStr "ATTIOBC", []⟩]
    (pyStr "4771OBC") (by decide) (by decide)).1

/-- C5: when the cloud provider call raises, the orchestrator catches the
exception, runs the local pipeline, and returns its (plate?, confidence)
pair — in particular, for a local pass list `inputs` it returns exactly the
local pipeline's result, and a local exception degrades to `(None, 0.0)`;
the orchestrator itself is a total function, so nothing propagates. -/
theorem c5_cloud_failure_resilient :
    (∀ loc, orchestratorReadPlate CloudOutcome.failure loc = localFallback loc) ∧
    (∀ inputs, orchestratorReadPlate CloudOutcome.failure
        (LocalOutcome.success (readPlateFromTexts inputs)) =
      readPlateFromTexts inputs) ∧
    orchestratorReadPlate CloudOutcome.failure LocalOutcome.failure =
      (none, 0) :=
  ⟨fun _ => rfl, fun _ => rfl, rfl⟩

/-- C6: feeding the OCR output `"12B4ABC"` through the correction chain
(`_fix_common_ocr_errors` then `_apply_smart_corrections`) yields the
candidate `"1284ABC"` (score 100), which passes `is_valid_plate`. -/
theorem c6_correct_12B4ABC :
    (pyStr "1284ABC", 100) ∈
      smartCorrections (fixCommonOcrErrors (pyStr "12B4ABC")) ∧
    isValidPlate (pyStr "1284ABC") = true := by decide

/-- C7: the preprocessor is total and its failure policy is the grayscale
fallback — whenever any step of the `try` block fails, the result is exactly
the plain grayscale decoding of the original bytes, and when the pipeline
succeeds its image is returned unchanged. -/
theorem c7_preprocess_never_raises {Img : Type} (o : CVOracle Img)
    (bytes : List Nat) (aggressive : Bool) (strategy : PStrategy) :
    (∀ e, preprocessTry o bytes aggressive strategy = .error e →
      preprocessPlateImage o bytes aggressive strategy = o.imdecodeGray bytes) ∧
    (∀ i, preprocessTry o bytes aggressive strategy = .ok i →
      preprocessPlateImage o bytes aggressive strategy = some i) := by
  constructor
  · intro e he
    unfold preprocessPlateImage
    rw [he]
  · intro i hi
    unfold preprocessPlateImage
    rw [hi]

/-- C7 (witness): with undecodable input bytes the pipeline fails at the
decode step and the preprocessor returns the grayscale decoding. -/
theorem c7_preprocess_never_raises_witness :
    preprocessTry failingOracle [] false PStrategy.normal = .error () ∧
    preprocessPlateImage failingOracle [] false PStrategy.normal = some () := by
  refine ⟨rfl, ?_⟩
  have h := (c7_preprocess_never_raises failingOracle [] false
    PStrategy.normal).1 () rfl
  rw [h]
  rfl

end PlateOCR
